import Mathlib

/-!
# CookieStore (store.go): signed-cookie storage of the CSRF token

A shallow embedding of `CookieStore.Get` and `CookieStore.Save` and of the
parts of `net/http`, `time` and `securecookie` those two methods call.

* Go `string` is `String`, `[]byte` is `List Byte`, a nil slice or nil error is `none`.
* Go `int` (taken as 64 bits wide) and `int64` are `Int`; the one place where the
  source multiplies (`time.Duration(cs.MaxAge) * time.Second`) wraps to 64 bits.
* The codec `*securecookie.SecureCookie` is a pair of functions carried by the store.
* The clock reading `time.Now()` is an explicit argument of `Save`.
-/

namespace csrf

/-! ## Data model -/

/-- One element of a Go byte slice. -/
abbrev Byte := Fin 256

/-- Modelled from the spec: tokenLength, the constant of package csrf that store.go uses
and that is declared outside it; the spec fixes the secret token at 32 bytes. -/
def tokenLength : Nat := 32

/-- An instant (`time.Time`), as nanoseconds elapsed since the zero time
January 1, year 1, 00:00:00 UTC. The zero value of the Go type is `⟨0⟩`. -/
structure Time where
  ns : Int
  deriving DecidableEq

/-- A `time.Duration`: a signed 64-bit count of nanoseconds. -/
abbrev Duration := Int

/-- Two's-complement wrap-around of an integer to the int64 range. -/
def wrapInt64 (x : Int) : Int := (x + 2 ^ 63) % 2 ^ 64 - 2 ^ 63

/-- The constant `time.Second`. -/
def Second : Duration := 1000000000

/-- Multiplication of two durations as Go performs it: in int64, wrapping on overflow. -/
def Duration.mul (a b : Duration) : Duration := wrapInt64 (a * b)

/-- The method `Time.Add`: the instant `d` nanoseconds later. -/
def Time.Add (t : Time) (d : Duration) : Time := ⟨t.ns + d⟩

/-- The fields of `http.Cookie` that store.go sets or reads. `SameSite` holds the
integer value of the `http.SameSite` enumeration. -/
structure Cookie where
  Name : String := ""
  Value : String := ""
  Path : String := ""
  Domain : String := ""
  Expires : Time := ⟨0⟩
  MaxAge : Int := 0
  Secure : Bool := false
  HttpOnly : Bool := false
  SameSite : Int := 0
  deriving DecidableEq

/-- The error values `Get` and `Save` can return: `http.ErrNoCookie`, or an error
produced by the securecookie codec (carried unchanged). -/
inductive Error where
  | ErrNoCookie
  | securecookie (msg : String)
  deriving DecidableEq

/-- The two methods of `*securecookie.SecureCookie` the store calls.
`Encode name value` returns the sealed text or an error.
`Decode name value dst` receives the current content of the destination slice and
returns the error (if any) together with the content of the slice afterwards. -/
structure SecureCookie where
  Encode : String → List Byte → Except String String
  Decode : String → String → List Byte → Option String × List Byte

/-- The struct `CookieStore`. `MaxAge` is a Go `int` (64 bits on the usual platforms);
`SameSite` is the integer value of `SameSiteMode`. -/
structure CookieStore where
  Name : String
  MaxAge : Int
  Secure : Bool
  HttpOnly : Bool
  Path : String
  Domain : String
  Sc : SecureCookie
  SameSite : Int

/-! ## net/http: cookies on the response -/

/-- The predicate `httpguts.IsTokenRune`: the characters allowed in a cookie name
(ASCII letters, digits and the punctuation of an RFC 7230 token). -/
def isTokenRune (c : Char) : Bool :=
  let n := c.toNat
  (48 ≤ n && n ≤ 57) || (65 ≤ n && n ≤ 90) || (97 ≤ n && n ≤ 122) ||
    [33, 35, 36, 37, 38, 39, 42, 43, 45, 46, 94, 95, 96, 124, 126].contains n

/-- The function `isCookieNameValid` of net/http: non-empty and made of token characters. -/
def isCookieNameValid (raw : String) : Bool :=
  raw.toList != [] && raw.toList.all isTokenRune

/-- A value stored under a header key: an uninterpreted text, or the Set-Cookie line
that `Cookie.String` renders for a cookie. The line is represented by the cookie it was
rendered from; `Cookie.maxAgeAttr` and `Cookie.expiresAttr` read off the attributes the
rendering writes. The name=value pair of the line is that of the cookie: the byte filter
`sanitizeCookieValue` leaves the URL-safe base64 text that securecookie emits unchanged. -/
inductive HeaderValue where
  | text (s : String)
  | setCookie (c : Cookie)
  deriving DecidableEq

/-- The type `http.Header`: the list of values under each key. -/
abbrev Header := String → List HeaderValue

/-- The method `Header.Add`: append a value to the list under `key`. -/
def Header.Add (h : Header) (key : String) (value : HeaderValue) : Header :=
  fun k => if k = key then h k ++ [value] else h k

/-- An `http.ResponseWriter`, as the header map its `Header()` method returns. -/
structure ResponseWriter where
  Header : Header

/-- The method `Cookie.String`: the Set-Cookie line for `c`, or nothing (the empty
string in Go) when the cookie name is invalid. -/
def Cookie.toSetCookie (c : Cookie) : Option HeaderValue :=
  if isCookieNameValid c.Name then some (HeaderValue.setCookie c) else none

/-- The function `validCookieExpires`: the year of `t` is at least 1601. The years
1 to 1600 span 584388 days. -/
def validCookieExpires (t : Time) : Bool :=
  decide (584388 * 86400 * 1000000000 ≤ t.ns)

/-- The Expires attribute `Cookie.String` writes: present when `validCookieExpires`. -/
def Cookie.expiresAttr (c : Cookie) : Option Time :=
  if validCookieExpires c.Expires then some c.Expires else none

/-- The Max-Age attribute `Cookie.String` writes: `Max-Age=n` for `MaxAge = n > 0`,
`Max-Age=0` for a negative `MaxAge`, none for `MaxAge = 0`. -/
def Cookie.maxAgeAttr (c : Cookie) : Option Int :=
  if c.MaxAge > 0 then some c.MaxAge
  else if c.MaxAge < 0 then some 0
  else none

/-- The function `http.SetCookie`: add the cookie's line under Set-Cookie, unless
`Cookie.String` is empty ("invalid cookies may be silently dropped"). -/
def SetCookie (w : ResponseWriter) (cookie : Cookie) : ResponseWriter :=
  match cookie.toSetCookie with
  | some v => ⟨w.Header.Add "Set-Cookie" v⟩
  | none => w

/-! ## net/http: cookies on the request -/

/-- An `http.Request`. `cookies` lists the name=value pairs that `readCookies` parses
out of the Cookie header lines, in order; `Header` holds the other header lines.
`readCookies` skips every pair whose name is not a valid cookie name, which is the
invariant `valid`. -/
structure Request where
  Method : String
  Header : String → List String
  Body : List Byte
  cookies : List (String × String)
  valid : ∀ p ∈ cookies, isCookieNameValid p.1 = true

/-- The function `readCookies(r.Header, filter)`: the parsed cookies, restricted to
those named `filter` when `filter` is not empty. -/
def readCookies (r : Request) (filter : String) : List Cookie :=
  (r.cookies.filter (fun p => filter == "" || p.1 == filter)).map
    (fun p => { Name := p.1, Value := p.2 })

/-- The method `Request.Cookie`: the first cookie of that name, or `ErrNoCookie`;
the empty name finds no cookie. -/
def Request.Cookie (r : Request) (name : String) : Except Error Cookie :=
  if name = "" then .error Error.ErrNoCookie
  else
    match readCookies r name with
    | c :: _ => .ok c
    | [] => .error Error.ErrNoCookie

/-! ## store.go -/

/-- What a call of `Get` yields: the returned pair `(token, err)` and `decoded`, the
arguments `(name, value)` of each call made on `cs.Sc.Decode`, in order. -/
structure GetResult where
  token : Option (List Byte)
  err : Option Error
  decoded : List (String × String)

/-- The method `CookieStore.Get` (store.go, lines 39 to 54). -/
def CookieStore.Get (cs : CookieStore) (r : Request) : GetResult :=
  match r.Cookie cs.Name with
  | .error err => ⟨none, some err, []⟩
  | .ok cookie =>
    let token : List Byte := List.replicate tokenLength 0
    match cs.Sc.Decode cs.Name cookie.Value token with
    | (some err, _) => ⟨none, some (Error.securecookie err), [(cs.Name, cookie.Value)]⟩
    | (none, token) => ⟨some token, none, [(cs.Name, cookie.Value)]⟩

/-- The state after a call of `Save` and the error it returns: the store (reached
through the pointer receiver), the response writer, and `err`. -/
structure SaveResult where
  cs : CookieStore
  w : ResponseWriter
  err : Option Error

/-- The local variable `cookie` of `Save` at the call of `http.SetCookie`
(store.go, lines 64 to 81), for the sealed text `encoded` and the clock reading `now`. -/
def CookieStore.Save.cookie (cs : CookieStore) (encoded : String) (now : Time) : Cookie :=
  let cookie : Cookie :=
    { Name := cs.Name
      Value := encoded
      MaxAge := cs.MaxAge
      HttpOnly := cs.HttpOnly
      Secure := cs.Secure
      SameSite := cs.SameSite
      Path := cs.Path
      Domain := cs.Domain }
  if cs.MaxAge > 0 then
    { cookie with Expires := now.Add (Duration.mul cs.MaxAge Second) }
  else cookie

/-- The method `CookieStore.Save` (store.go, lines 57 to 87); `now` is what
`time.Now()` returns during the call. -/
def CookieStore.Save (cs : CookieStore) (token : List Byte) (w : ResponseWriter)
    (now : Time) : SaveResult :=
  match cs.Sc.Encode cs.Name token with
  | .error err => ⟨cs, w, some (Error.securecookie err)⟩
  | .ok encoded => ⟨cs, SetCookie w (CookieStore.Save.cookie cs encoded now), none⟩

/-! ## Fixtures: a concrete codec, stores, requests and a response writer -/

/-- The lower-case hexadecimal digit of `n < 16`. -/
def hexDigit (n : Nat) : Char :=
  if n < 10 then Char.ofNat (48 + n) else Char.ofNat (87 + n)

/-- The value of a lower-case hexadecimal digit. -/
def hexValue (c : Char) : Option Nat :=
  let n := c.toNat
  if 48 ≤ n ∧ n ≤ 57 then some (n - 48)
  else if 97 ≤ n ∧ n ≤ 102 then some (n - 87)
  else none

/-- Two hexadecimal digits per byte. -/
def hexEncode (bs : List Byte) : List Char :=
  bs.flatMap fun b => [hexDigit (b.val / 16), hexDigit (b.val % 16)]

/-- The inverse of `hexEncode`; fails on an odd length or a character that is no digit. -/
def hexDecode : List Char → Option (List Byte)
  | [] => some []
  | [_] => none
  | a :: b :: rest =>
    match hexValue a, hexValue b, hexDecode rest with
    | some x, some y, some tl => some (Fin.ofNat (16 * x + y) :: tl)
    | _, _, _ => none

/-- A codec that seals a byte sequence as its hexadecimal text. Like securecookie with
its default serializer, `Decode` replaces the destination slice by the decoded bytes,
whatever their number; without a key both methods fail. -/
def hexCodec (keySet : Bool) : SecureCookie where
  Encode := fun _ value =>
    if keySet then .ok (String.mk (hexEncode value))
    else .error "securecookie: hash key is not set"
  Decode := fun _ value dst =>
    if keySet then
      match hexDecode value.toList with
      | some bs => (none, bs)
      | none => (some "securecookie: the value is not valid", dst)
    else (some "securecookie: hash key is not set", dst)

/-- The configuration of the spec's scenario: csrf_token, MaxAge 3600, Secure,
HttpOnly, SameSite Lax (2). -/
def store0 : CookieStore :=
  { Name := "csrf_token", MaxAge := 3600, Secure := true, HttpOnly := true, Path := "/",
    Domain := "", Sc := hexCodec true, SameSite := 2 }

/-- The secret of the spec's scenario: first byte 1, then 31 zero bytes. -/
def secret0 : List Byte := 1 :: List.replicate 31 0

/-- The sealed text of `secret0` under `hexCodec`. -/
def sealed0 : String := String.mk (hexEncode secret0)

/-- A response writer with no header line yet. -/
def w0 : ResponseWriter := ⟨fun _ => []⟩

/-- A response writer that already carries a content type and one cookie. -/
def w1 : ResponseWriter :=
  ⟨fun k =>
    if k = "Content-Type" then [HeaderValue.text "text/html"]
    else if k = "Set-Cookie" then [HeaderValue.text "session=abc; Path=/"]
    else []⟩

/-- A clock reading in November 2025. -/
def now0 : Time := ⟨63900000000000000000⟩

/-- A request carrying the given cookies and nothing else of interest. -/
def requestWith (cookies : List (String × String))
    (valid : ∀ p ∈ cookies, isCookieNameValid p.1 = true) : Request :=
  ⟨"POST", fun _ => [], [], cookies, valid⟩

/-- The request of the spec's scenario: it carries the cookie `Save` wrote for `secret0`. -/
def request0 : Request := requestWith [("csrf_token", sealed0)] (by decide)

/-- A request with an unrelated cookie only. -/
def requestOther : Request := requestWith [("session", "abc")] (by decide)

/-- A request whose csrf_token cookie was tampered with: its first character is no digit. -/
def requestTampered : Request :=
  requestWith [("session", "abc"), ("csrf_token", "x100")] (by decide)

/-- A request whose csrf_token cookie is the sealed text of the three bytes 1, 2, 3. -/
def requestShort : Request := requestWith [("csrf_token", "010203")] (by decide)

/-- A request with the tampered csrf_token cookie first, another method and a body. -/
def requestTamperedGet : Request :=
  ⟨"GET", fun _ => [], [7], [("csrf_token", "x100"), ("a", "b")], by decide⟩

/-- A store with the name and codec of `store0` and other attributes. -/
def storeSession : CookieStore :=
  { Name := "csrf_token", MaxAge := 0, Secure := false, HttpOnly := false, Path := "/app",
    Domain := "example.com", Sc := hexCodec true, SameSite := 3 }

/-- The store `store0` with the zero value of `Name`. -/
def storeUnnamed : CookieStore := { store0 with Name := "" }

/-- The store `store0` with a name that contains a blank. -/
def storeBlank : CookieStore := { store0 with Name := "csrf token" }

/-- The store `store0` with a codec that has no key. -/
def storeNoKey : CookieStore := { store0 with Sc := hexCodec false }

/-- The store `store0` with a MaxAge of 9223372037 seconds (about 292 years). -/
def storeHuge : CookieStore := { store0 with MaxAge := 9223372037 }

/-- The store `store0` with a negative MaxAge. -/
def storeNegative : CookieStore := { store0 with MaxAge := -1 }

/-! ## Auxiliary facts about the library model -/

/-- A valid cookie name is not the empty string. -/
theorem ne_empty_of_isCookieNameValid (name : String) (h : isCookieNameValid name = true) :
    name ≠ "" := by
  intro hn
  subst hn
  simp [isCookieNameValid] at h

/-- The cookies `readCookies` returns for a non-empty filter start with the first
pair of that name. -/
theorem readCookies_eq (r : Request) (name : String) (hname : name ≠ "") :
    readCookies r name =
      (r.cookies.filter (fun p => p.1 == name)).map (fun p => { Name := p.1, Value := p.2 }) := by
  have h : (fun p : String × String => name == "" || p.1 == name) =
      fun p : String × String => p.1 == name := by
    funext p
    simp [hname]
  simp [readCookies, h]

/-- The method `Request.Cookie` in terms of the first pair of that name. -/
theorem Request.Cookie_eq_find (r : Request) (name : String) (hname : name ≠ "") :
    r.Cookie name =
      match r.cookies.find? (fun p => p.1 == name) with
      | some p => .ok { Name := p.1, Value := p.2 }
      | none => .error Error.ErrNoCookie := by
  unfold Request.Cookie
  rw [if_neg hname, readCookies_eq r name hname]
  induction r.cookies with
  | nil => rfl
  | cons p ps ih =>
    by_cases hp : (p.1 == name) = true
    · simp [List.filter_cons, List.find?_cons, hp]
    · simp only [Bool.not_eq_true] at hp
      simp only [List.filter_cons, List.find?_cons, hp]
      exact ih

/-- Without a pair of that name `Request.Cookie` fails with `ErrNoCookie`. -/
theorem Request.Cookie_of_absent (r : Request) (name : String)
    (h : ∀ p ∈ r.cookies, p.1 ≠ name) : r.Cookie name = .error Error.ErrNoCookie := by
  by_cases hname : name = ""
  · simp [Request.Cookie, hname]
  · rw [Request.Cookie_eq_find r name hname]
    have hnone : r.cookies.find? (fun p => p.1 == name) = none := by
      rw [List.find?_eq_none]
      intro p hp
      simpa using h p hp
    rw [hnone]

/-- What `Get` returns once the named cookie is known. -/
theorem CookieStore.Get_of_cookie (cs : CookieStore) (r : Request) (c : Cookie)
    (h : r.Cookie cs.Name = .ok c) :
    cs.Get r =
      match cs.Sc.Decode cs.Name c.Value (List.replicate tokenLength 0) with
      | (some err, _) => ⟨none, some (Error.securecookie err), [(cs.Name, c.Value)]⟩
      | (none, token) => ⟨some token, none, [(cs.Name, c.Value)]⟩ := by
  unfold CookieStore.Get
  rw [h]

/-- The Set-Cookie list after `http.SetCookie` with a valid cookie name. -/
theorem SetCookie_header_valid (w : ResponseWriter) (c : Cookie)
    (h : isCookieNameValid c.Name = true) :
    (SetCookie w c).Header "Set-Cookie" = w.Header "Set-Cookie" ++ [HeaderValue.setCookie c] := by
  simp [SetCookie, Cookie.toSetCookie, h, Header.Add]

/-- With an invalid cookie name `http.SetCookie` leaves the response as it is. -/
theorem SetCookie_invalid (w : ResponseWriter) (c : Cookie)
    (h : isCookieNameValid c.Name = false) : SetCookie w c = w := by
  simp [SetCookie, Cookie.toSetCookie, h]

/-- The function `http.SetCookie` touches no key other than Set-Cookie. -/
theorem SetCookie_header_other (w : ResponseWriter) (c : Cookie) (k : String)
    (hk : k ≠ "Set-Cookie") : (SetCookie w c).Header k = w.Header k := by
  unfold SetCookie
  cases c.toSetCookie with
  | none => rfl
  | some v => simp [Header.Add, hk]

/-- The cookie `Save` builds carries the store's name. -/
theorem CookieStore.Save.cookie_Name (cs : CookieStore) (encoded : String) (now : Time) :
    (CookieStore.Save.cookie cs encoded now).Name = cs.Name := by
  unfold CookieStore.Save.cookie
  split <;> rfl

/-- The cookie `Save` builds carries the sealed text. -/
theorem CookieStore.Save.cookie_Value (cs : CookieStore) (encoded : String) (now : Time) :
    (CookieStore.Save.cookie cs encoded now).Value = encoded := by
  unfold CookieStore.Save.cookie
  split <;> rfl

/-- The cookie `Save` builds carries the store's MaxAge. -/
theorem CookieStore.Save.cookie_MaxAge (cs : CookieStore) (encoded : String) (now : Time) :
    (CookieStore.Save.cookie cs encoded now).MaxAge = cs.MaxAge := by
  unfold CookieStore.Save.cookie
  split <;> rfl

/-- A successful `Save` is one whose `Encode` succeeded, and it ends in `http.SetCookie`. -/
theorem CookieStore.Save_of_success (cs : CookieStore) (token : List Byte)
    (w : ResponseWriter) (now : Time) (h : (cs.Save token w now).err = none) :
    ∃ encoded, cs.Sc.Encode cs.Name token = .ok encoded ∧
      cs.Save token w now = ⟨cs, SetCookie w (CookieStore.Save.cookie cs encoded now), none⟩ := by
  unfold CookieStore.Save at h ⊢
  cases hE : cs.Sc.Encode cs.Name token with
  | error e => rw [hE] at h; simp at h
  | ok encoded => exact ⟨encoded, rfl, rfl⟩

/-! ## Get -/

/-- C1: Save-then-Get round trip. For every store, token `S` (32 bytes or not) and
codec for which decoding the sealed text of `S` into the fresh 32-byte buffer yields
`S`: if `Save S w` returns nil, `c` is the cookie it appended to the Set-Cookie list
of `w`, and the request carries exactly the pair (name, value) of `c`, then `Get`
returns `S` with a nil error. -/
theorem save_get_round_trip (cs : CookieStore) (S : List Byte) (w : ResponseWriter)
    (now : Time) (r : Request) (c : Cookie)
    (hcodec : ∀ encoded, cs.Sc.Encode cs.Name S = .ok encoded →
      cs.Sc.Decode cs.Name encoded (List.replicate tokenLength 0) = (none, S))
    (hsave : (cs.Save S w now).err = none)
    (happended : (cs.Save S w now).w.Header "Set-Cookie" =
      w.Header "Set-Cookie" ++ [HeaderValue.setCookie c])
    (hrequest : r.cookies = [(c.Name, c.Value)]) :
    (cs.Get r).token = some S ∧ (cs.Get r).err = none := by
  obtain ⟨encoded, hE, hS⟩ := CookieStore.Save_of_success cs S w now hsave
  rw [hS] at happended
  simp only at happended
  have hvalid : isCookieNameValid cs.Name = true := by
    by_contra hv
    simp only [Bool.not_eq_true] at hv
    rw [SetCookie_invalid w _ (by rw [CookieStore.Save.cookie_Name]; exact hv)] at happended
    have hlen := congrArg List.length happended
    simp at hlen
  rw [SetCookie_header_valid w _ (by rw [CookieStore.Save.cookie_Name]; exact hvalid)]
    at happended
  have hc : c = CookieStore.Save.cookie cs encoded now := by
    have := List.append_cancel_left happended
    simpa using this.symm
  have hcName : c.Name = cs.Name := by rw [hc, CookieStore.Save.cookie_Name]
  have hcValue : c.Value = encoded := by rw [hc, CookieStore.Save.cookie_Value]
  have hne : cs.Name ≠ "" := ne_empty_of_isCookieNameValid cs.Name hvalid
  have hcookie : r.Cookie cs.Name = .ok { Name := cs.Name, Value := encoded } := by
    rw [Request.Cookie_eq_find r cs.Name hne, hrequest, hcName, hcValue]
    simp
  rw [CookieStore.Get_of_cookie cs r _ hcookie]
  simp only
  rw [hcodec encoded hE]
  exact ⟨rfl, rfl⟩

/-- C2: for every request that carries no cookie named `cs.Name`, `Get` returns a nil
token together with `ErrNoCookie` (the NotFound error), and makes no call on the
codec's `Decode`. -/
theorem get_without_cookie (cs : CookieStore) (r : Request)
    (habsent : ∀ p ∈ r.cookies, p.1 ≠ cs.Name) :
    cs.Get r = ⟨none, some Error.ErrNoCookie, []⟩ := by
  unfold CookieStore.Get
  rw [Request.Cookie_of_absent r cs.Name habsent]

/-- C3: for every request whose first cookie named `cs.Name` has a value `p.2` that
`Decode` (called with `cs.Name` and the fresh 32-byte buffer) rejects with `e`, `Get`
returns that error and a nil token: neither decoded bytes nor the zero buffer, whatever
`Decode` left in the buffer. -/
theorem get_rejected_value (cs : CookieStore) (r : Request) (p : String × String)
    (e : String) (left : List Byte)
    (hcookie : r.cookies.find? (fun q => q.1 == cs.Name) = some p)
    (hreject : cs.Sc.Decode cs.Name p.2 (List.replicate tokenLength 0) = (some e, left)) :
    (cs.Get r).token = none ∧ (cs.Get r).err = some (Error.securecookie e) := by
  have hmem : p ∈ r.cookies := List.mem_of_find?_eq_some hcookie
  have hp : p.1 = cs.Name := by
    have := List.find?_some hcookie
    simpa using this
  have hne : cs.Name ≠ "" := by
    rw [← hp]
    exact ne_empty_of_isCookieNameValid p.1 (r.valid p hmem)
  have hc : r.Cookie cs.Name = .ok { Name := p.1, Value := p.2 } := by
    rw [Request.Cookie_eq_find r cs.Name hne, hcookie]
  rw [CookieStore.Get_of_cookie cs r _ hc]
  simp only
  rw [hreject]
  exact ⟨rfl, rfl⟩

/-- C10: `Get` depends only on the store's name, its codec and the value of the
request's first cookie of that name. Two stores with the same `Name` and `Sc`, and two
requests whose first cookie of that name has the same value (or which both have none),
give the same token, the same error and the same `Decode` calls, whatever the other
cookies, header lines, method, body and store fields are. -/
theorem get_depends_only_on_named_cookie (cs₁ cs₂ : CookieStore) (r₁ r₂ : Request)
    (hname : cs₁.Name = cs₂.Name) (hsc : cs₁.Sc = cs₂.Sc)
    (hvalue : (r₁.cookies.find? (fun q => q.1 == cs₁.Name)).map Prod.snd =
      (r₂.cookies.find? (fun q => q.1 == cs₁.Name)).map Prod.snd) :
    cs₁.Get r₁ = cs₂.Get r₂ := by
  unfold CookieStore.Get
  rw [← hname, ← hsc]
  by_cases hne : cs₁.Name = ""
  · simp [Request.Cookie, hne]
  · rw [Request.Cookie_eq_find r₁ cs₁.Name hne, Request.Cookie_eq_find r₂ cs₁.Name hne]
    cases h₁ : r₁.cookies.find? (fun q => q.1 == cs₁.Name) with
    | none =>
      cases h₂ : r₂.cookies.find? (fun q => q.1 == cs₁.Name) with
      | none => rfl
      | some p₂ => rw [h₁, h₂] at hvalue; simp at hvalue
    | some p₁ =>
      cases h₂ : r₂.cookies.find? (fun q => q.1 == cs₁.Name) with
      | none => rw [h₁, h₂] at hvalue; simp at hvalue
      | some p₂ =>
        rw [h₁, h₂] at hvalue
        simp only [Option.map_some', Option.some.injEq] at hvalue
        simp only [hvalue]

/-- C1, at the spec's scenario: `store0` saves `secret0`, the request carries the
cookie written, and `Get` returns `secret0`. -/
theorem save_get_round_trip_witness :
    (store0.Get request0).token = some secret0 ∧ (store0.Get request0).err = none :=
  save_get_round_trip store0 secret0 w0 now0 request0
    (CookieStore.Save.cookie store0 sealed0 now0)
    (by intro encoded h; cases h; decide) (by decide) (by decide) (by decide)

/-- C2, at a request that carries only a session cookie. -/
theorem get_without_cookie_witness :
    store0.Get requestOther = ⟨none, some Error.ErrNoCookie, []⟩ :=
  get_without_cookie store0 requestOther (by decide)

/-- C3, at a request whose csrf_token cookie was tampered with. -/
theorem get_rejected_value_witness :
    (store0.Get requestTampered).token = none ∧
      (store0.Get requestTampered).err =
        some (Error.securecookie "securecookie: the value is not valid") :=
  get_rejected_value store0 requestTampered ("csrf_token", "x100")
    "securecookie: the value is not valid" (List.replicate tokenLength 0)
    (by decide) (by decide)

/-- C10, at two requests that differ in method, body and other cookies. -/
theorem get_depends_only_on_named_cookie_witness :
    store0.Get requestTampered = storeSession.Get requestTamperedGet :=
  get_depends_only_on_named_cookie store0 storeSession requestTampered requestTamperedGet
    rfl rfl (by decide)

/-- C4 (as stated) fails: `store0` saves the three-byte token 1, 2, 3; on the request
that carries the cookie written, `Get` succeeds and returns those three bytes, not
32 bytes and not an error. -/
theorem get_returns_three_bytes :
    (store0.Save [1, 2, 3] w0 now0).w.Header "Set-Cookie" =
        [HeaderValue.setCookie (CookieStore.Save.cookie store0 "010203" now0)] ∧
      (store0.Get requestShort).err = none ∧
      (store0.Get requestShort).token = some [1, 2, 3] ∧
      ¬ ∃ t, (store0.Get requestShort).token = some t ∧ t.length = tokenLength := by
  refine ⟨by decide, by decide, by decide, ?_⟩
  rintro ⟨t, ht, hlen⟩
  have h3 : (store0.Get requestShort).token = some [1, 2, 3] := by decide
  rw [h3] at ht
  cases ht
  simp [tokenLength] at hlen

/-- C4 (amended): whenever `Get` returns a nil error, the request has a cookie named
`cs.Name`, `Decode` accepted its value, and the token returned is what `Decode` left in
the buffer that was allocated with 32 zero bytes, whatever its length. -/
theorem get_success_returns_decoded (cs : CookieStore) (r : Request)
    (h : (cs.Get r).err = none) :
    ∃ c token, r.Cookie cs.Name = .ok c ∧
      cs.Sc.Decode cs.Name c.Value (List.replicate tokenLength 0) = (none, token) ∧
      cs.Get r = ⟨some token, none, [(cs.Name, c.Value)]⟩ := by
  unfold CookieStore.Get at h ⊢
  cases hc : r.Cookie cs.Name with
  | error e => rw [hc] at h; simp at h
  | ok c =>
    rw [hc] at h
    simp only at h ⊢
    cases hd : cs.Sc.Decode cs.Name c.Value (List.replicate tokenLength 0) with
    | mk e token =>
      rw [hd] at h
      cases e with
      | some e => simp at h
      | none => exact ⟨c, token, rfl, hd, rfl⟩

/-- C4 (amended), at the spec's scenario. -/
theorem get_success_returns_decoded_witness :
    ∃ c token, request0.Cookie store0.Name = .ok c ∧
      store0.Sc.Decode store0.Name c.Value (List.replicate tokenLength 0) = (none, token) ∧
      store0.Get request0 = ⟨some token, none, [(store0.Name, c.Value)]⟩ :=
  get_success_returns_decoded store0 request0 (by decide)

/-! ## Save -/

/-- C5 (as stated) fails: the store with the zero-value name seals `secret0` and
returns nil, yet the Set-Cookie list of the response is what it was: no cookie was
appended. -/
theorem save_unnamed_appends_nothing :
    (storeUnnamed.Save secret0 w1 now0).err = none ∧
      (storeUnnamed.Save secret0 w1 now0).w.Header "Set-Cookie" = w1.Header "Set-Cookie" ∧
      ¬ ∃ v, (storeUnnamed.Save secret0 w1 now0).w.Header "Set-Cookie" =
        w1.Header "Set-Cookie" ++ [v] := by
  refine ⟨by decide, by decide, ?_⟩
  rintro ⟨v, hv⟩
  have h : (storeUnnamed.Save secret0 w1 now0).w.Header "Set-Cookie" =
      w1.Header "Set-Cookie" := by decide
  rw [h] at hv
  have hlen := congrArg List.length hv
  simp at hlen

/-- C5 (amended): if `Encode cs.Name token` fails with `e`, `Save` returns that error
and the response writer is unchanged; and if `Save` returns nil, then `Encode`
succeeded, and when `cs.Name` is a valid cookie name the cookie built from the sealed
text was appended to the Set-Cookie list. -/
theorem save_atomic_on_encode_failure (cs : CookieStore) (token : List Byte)
    (w : ResponseWriter) (now : Time) :
    (∀ e, cs.Sc.Encode cs.Name token = .error e →
      (cs.Save token w now).err = some (Error.securecookie e) ∧
        (cs.Save token w now).w = w) ∧
    ((cs.Save token w now).err = none →
      ∃ encoded, cs.Sc.Encode cs.Name token = .ok encoded ∧
        (isCookieNameValid cs.Name = true →
          (cs.Save token w now).w.Header "Set-Cookie" =
            w.Header "Set-Cookie" ++
              [HeaderValue.setCookie (CookieStore.Save.cookie cs encoded now)])) := by
  constructor
  · intro e hE
    unfold CookieStore.Save
    rw [hE]
    exact ⟨rfl, rfl⟩
  · intro h
    obtain ⟨encoded, hE, hS⟩ := CookieStore.Save_of_success cs token w now h
    refine ⟨encoded, hE, ?_⟩
    intro hvalid
    rw [hS]
    exact SetCookie_header_valid w _ (by rw [CookieStore.Save.cookie_Name]; exact hvalid)

/-- C5 (amended), at a store whose codec has no key and at the spec's scenario. -/
theorem save_atomic_on_encode_failure_witness :
    ((storeNoKey.Save secret0 w1 now0).err =
        some (Error.securecookie "securecookie: hash key is not set") ∧
      (storeNoKey.Save secret0 w1 now0).w = w1) ∧
    ∃ encoded, store0.Sc.Encode store0.Name secret0 = .ok encoded ∧
      (isCookieNameValid store0.Name = true →
        (store0.Save secret0 w1 now0).w.Header "Set-Cookie" =
          w1.Header "Set-Cookie" ++
            [HeaderValue.setCookie (CookieStore.Save.cookie store0 encoded now0)]) :=
  ⟨(save_atomic_on_encode_failure storeNoKey secret0 w1 now0).1 _ rfl,
    (save_atomic_on_encode_failure store0 secret0 w1 now0).2 (by decide)⟩

/-- C6: whenever `Encode cs.Name token` succeeds with `encoded`, `Save` hands to
`http.SetCookie` a cookie whose Name is `cs.Name`, whose Value is `encoded`, and whose
MaxAge, HttpOnly, Secure, SameSite, Path and Domain are the store's fields; with a
valid cookie name that cookie is the entry appended to the Set-Cookie list. -/
theorem save_cookie_fields (cs : CookieStore) (token : List Byte) (w : ResponseWriter)
    (now : Time) (encoded : String) (hE : cs.Sc.Encode cs.Name token = .ok encoded) :
    ∃ c : Cookie,
      (cs.Save token w now).w = SetCookie w c ∧
      (cs.Save token w now).err = none ∧
      (isCookieNameValid cs.Name = true →
        (cs.Save token w now).w.Header "Set-Cookie" =
          w.Header "Set-Cookie" ++ [HeaderValue.setCookie c]) ∧
      c.Name = cs.Name ∧ c.Value = encoded ∧ c.MaxAge = cs.MaxAge ∧
      c.HttpOnly = cs.HttpOnly ∧ c.Secure = cs.Secure ∧ c.SameSite = cs.SameSite ∧
      c.Path = cs.Path ∧ c.Domain = cs.Domain := by
  refine ⟨CookieStore.Save.cookie cs encoded now, ?_, ?_, ?_, ?_⟩
  · unfold CookieStore.Save
    rw [hE]
  · unfold CookieStore.Save
    rw [hE]
  · intro hvalid
    unfold CookieStore.Save
    rw [hE]
    exact SetCookie_header_valid w _ (by rw [CookieStore.Save.cookie_Name]; exact hvalid)
  · unfold CookieStore.Save.cookie
    split <;> exact ⟨rfl, rfl, rfl, rfl, rfl, rfl, rfl, rfl⟩

/-- C6, at the spec's scenario. -/
theorem save_cookie_fields_witness :
    ∃ c : Cookie,
      (store0.Save secret0 w1 now0).w = SetCookie w1 c ∧
      (store0.Save secret0 w1 now0).err = none ∧
      (isCookieNameValid store0.Name = true →
        (store0.Save secret0 w1 now0).w.Header "Set-Cookie" =
          w1.Header "Set-Cookie" ++ [HeaderValue.setCookie c]) ∧
      c.Name = store0.Name ∧ c.Value = sealed0 ∧ c.MaxAge = store0.MaxAge ∧
      c.HttpOnly = store0.HttpOnly ∧ c.Secure = store0.Secure ∧
      c.SameSite = store0.SameSite ∧ c.Path = store0.Path ∧ c.Domain = store0.Domain :=
  save_cookie_fields store0 secret0 w1 now0 sealed0 rfl

/-- The int64 wrap-around is the identity on the int64 range. -/
theorem wrapInt64_of_range (x : Int) (hlo : -(2 ^ 63) ≤ x) (hhi : x < 2 ^ 63) :
    wrapInt64 x = x := by
  unfold wrapInt64
  have h : (x + 2 ^ 63) % 2 ^ 64 = x + 2 ^ 63 :=
    Int.emod_eq_of_lt (by omega) (by omega)
  omega

/-- The Expires field `Save` sets, for the values of MaxAge whose duration fits in
int64: for `0 < MaxAge ≤ 9223372036` it is the clock reading plus MaxAge seconds, so
it differs for different readings; for `MaxAge ≤ 0` it is the zero time. -/
theorem save_cookie_expires_in_range (cs : CookieStore) (encoded : String) (now : Time) :
    (0 < cs.MaxAge → cs.MaxAge ≤ 9223372036 →
      (CookieStore.Save.cookie cs encoded now).Expires =
        ⟨now.ns + cs.MaxAge * 1000000000⟩) ∧
    (cs.MaxAge ≤ 0 → (CookieStore.Save.cookie cs encoded now).Expires = ⟨0⟩) := by
  constructor
  · intro hpos hle
    have hw : wrapInt64 (cs.MaxAge * 1000000000) = cs.MaxAge * 1000000000 :=
      wrapInt64_of_range _ (by omega) (by omega)
    unfold CookieStore.Save.cookie
    rw [if_pos hpos]
    simp only [Time.Add, Duration.mul, Second, hw]
  · intro hle
    unfold CookieStore.Save.cookie
    rw [if_neg (by omega)]

/-- C7 fails on the code at MaxAge = 9223372037 (Go `int` of 64 bits): the product
`time.Duration(cs.MaxAge) * time.Second` overflows int64 and wraps to
-9223372036709551616 nanoseconds, so the cookie `Save` writes expires about 292 years
before the clock reading instead of MaxAge seconds after it. -/
theorem save_expires_overflow :
    (storeHuge.Save secret0 w0 now0).err = none ∧
    (storeHuge.Save secret0 w0 now0).w.Header "Set-Cookie" =
      [HeaderValue.setCookie (CookieStore.Save.cookie storeHuge sealed0 now0)] ∧
    (CookieStore.Save.cookie storeHuge sealed0 now0).Expires =
      ⟨now0.ns - 9223372036709551616⟩ ∧
    (CookieStore.Save.cookie storeHuge sealed0 now0).Expires ≠
      ⟨now0.ns + storeHuge.MaxAge * 1000000000⟩ := by
  refine ⟨by decide, by decide, by decide, by decide⟩

/-- The expiration attributes of the Set-Cookie line for the cookie `Save` builds:
Max-Age=MaxAge for a positive MaxAge, neither Max-Age nor Expires for MaxAge = 0, and
Max-Age=0 without Expires for a negative MaxAge. -/
theorem save_cookie_expiration_attributes (cs : CookieStore) (encoded : String)
    (now : Time) :
    (0 < cs.MaxAge →
      (CookieStore.Save.cookie cs encoded now).maxAgeAttr = some cs.MaxAge) ∧
    (cs.MaxAge = 0 →
      (CookieStore.Save.cookie cs encoded now).maxAgeAttr = none ∧
        (CookieStore.Save.cookie cs encoded now).expiresAttr = none) ∧
    (cs.MaxAge < 0 →
      (CookieStore.Save.cookie cs encoded now).maxAgeAttr = some 0 ∧
        (CookieStore.Save.cookie cs encoded now).expiresAttr = none) := by
  have hzero : ∀ c : Cookie, c.Expires = ⟨0⟩ → c.expiresAttr = none := by
    intro c hc
    simp [Cookie.expiresAttr, validCookieExpires, hc]
  refine ⟨?_, ?_, ?_⟩
  · intro hpos
    simp [Cookie.maxAgeAttr, CookieStore.Save.cookie_MaxAge, hpos]
  · intro h0
    refine ⟨?_, hzero _ ((save_cookie_expires_in_range cs encoded now).2 (by omega))⟩
    simp [Cookie.maxAgeAttr, CookieStore.Save.cookie_MaxAge, h0]
  · intro hneg
    refine ⟨?_, hzero _ ((save_cookie_expires_in_range cs encoded now).2 (by omega))⟩
    have h1 : ¬ cs.MaxAge > 0 := by omega
    simp [Cookie.maxAgeAttr, CookieStore.Save.cookie_MaxAge, h1, hneg]

/-- C8 fails on the code at MaxAge = -1: `Save` returns nil and the Set-Cookie line it
appends carries the attribute Max-Age=0 (and no Expires), which tells the client to
delete the cookie at once instead of keeping it for the session. -/
theorem save_negative_max_age :
    (storeNegative.Save secret0 w0 now0).err = none ∧
    (storeNegative.Save secret0 w0 now0).w.Header "Set-Cookie" =
      [HeaderValue.setCookie (CookieStore.Save.cookie storeNegative sealed0 now0)] ∧
    (CookieStore.Save.cookie storeNegative sealed0 now0).maxAgeAttr = some 0 ∧
    (CookieStore.Save.cookie storeNegative sealed0 now0).expiresAttr = none := by
  refine ⟨by decide, by decide, by decide, by decide⟩

/-- C9 (as stated) fails: the store whose name contains a blank seals `secret0` and
returns nil, and the Set-Cookie list of the response is what it was: no entry was
appended. -/
theorem save_blank_name_appends_nothing :
    (storeBlank.Save secret0 w1 now0).err = none ∧
      (storeBlank.Save secret0 w1 now0).w.Header "Set-Cookie" =
        [HeaderValue.text "session=abc; Path=/"] ∧
      ¬ ∃ v, (storeBlank.Save secret0 w1 now0).w.Header "Set-Cookie" =
        w1.Header "Set-Cookie" ++ [v] := by
  refine ⟨by decide, by decide, ?_⟩
  rintro ⟨v, hv⟩
  have h : (storeBlank.Save secret0 w1 now0).w.Header "Set-Cookie" =
      w1.Header "Set-Cookie" := by decide
  rw [h] at hv
  have hlen := congrArg List.length hv
  simp at hlen

/-- C9 (amended): when `Save` returns nil, the lists under every key other than
Set-Cookie are unchanged; with a valid cookie name the Set-Cookie list is the former
list followed by exactly one new entry, and with an invalid name it is the former
list; the store is the one `Save` was called on. -/
theorem save_frame (cs : CookieStore) (token : List Byte) (w : ResponseWriter)
    (now : Time) (h : (cs.Save token w now).err = none) :
    (∀ k, k ≠ "Set-Cookie" → (cs.Save token w now).w.Header k = w.Header k) ∧
    (isCookieNameValid cs.Name = true →
      ∃ v, (cs.Save token w now).w.Header "Set-Cookie" = w.Header "Set-Cookie" ++ [v]) ∧
    (isCookieNameValid cs.Name = false →
      (cs.Save token w now).w.Header "Set-Cookie" = w.Header "Set-Cookie") ∧
    (cs.Save token w now).cs = cs := by
  obtain ⟨encoded, _, hS⟩ := CookieStore.Save_of_success cs token w now h
  rw [hS]
  refine ⟨?_, ?_, ?_, rfl⟩
  · intro k hk
    exact SetCookie_header_other w _ k hk
  · intro hvalid
    exact ⟨_, SetCookie_header_valid w _ (by rw [CookieStore.Save.cookie_Name]; exact hvalid)⟩
  · intro hinvalid
    simp only
    rw [SetCookie_invalid w _ (by rw [CookieStore.Save.cookie_Name]; exact hinvalid)]

/-- C9 (amended), at the spec's scenario on a response that already has two lines. -/
theorem save_frame_witness :
    (∀ k, k ≠ "Set-Cookie" → (store0.Save secret0 w1 now0).w.Header k = w1.Header k) ∧
    (isCookieNameValid store0.Name = true →
      ∃ v, (store0.Save secret0 w1 now0).w.Header "Set-Cookie" =
        w1.Header "Set-Cookie" ++ [v]) ∧
    (isCookieNameValid store0.Name = false →
      (store0.Save secret0 w1 now0).w.Header "Set-Cookie" = w1.Header "Set-Cookie") ∧
    (store0.Save secret0 w1 now0).cs = store0 :=
  save_frame store0 secret0 w1 now0 (by decide)

end csrf
